import Mathlib

/-!
Shallow embedding of the sales-forecasting core of `src/app.py`
(repository `dmitriyrayder/predict_sales`).

Conventions of the embedding:
* Python floats are modelled as exact rationals `ℚ`; the float `NaN`
  produced by pandas (e.g. the sample standard deviation of a single
  observation) is modelled by returning `none` from an `Option`-valued
  function.
* A pandas `Series` of values is a `List ℚ`; a dataframe row of the
  sales table is a `TxRow`; a row of a Prophet forecast frame is a
  `ForecastRow`.
* `numpy.sqrt` is modelled by `Rat.sqrt`, which agrees with the real
  square root whenever its argument is a square of a rational (all
  closed statements below only evaluate it at such arguments).
* External library internals (Prophet fitting, `scipy`'s
  `savgol_filter`) are not part of the repository; they enter the
  embedding only as opaque parameters (`fit`, `sg`) of the functions
  that call them, so every theorem quantifies over their behaviour.
-/

set_option linter.unusedVariables false

namespace PredictSales

/-- One row of the validated sales table (columns `Magazin`, `Segment`,
`Datasales`, `Qty` of `src/app.py`); calendar days are modelled as
naturals. -/
structure TxRow where
  magazin : String
  segment : String
  datasales : ℕ
  qty : ℚ
deriving DecidableEq

/-- One row of a Prophet forecast frame: columns `yhat`, `yhat_lower`,
`yhat_upper`. -/
structure ForecastRow where
  yhat : ℚ
  yhat_lower : ℚ
  yhat_upper : ℚ
deriving DecidableEq

/-- `pandas.Series.quantile(p)` with the default linear interpolation:
position `p * (n - 1)` in the ascending sort of the values, linearly
interpolated between the two adjacent order statistics. -/
def quantile (data : List ℚ) (p : ℚ) : ℚ :=
  let s := List.insertionSort (fun a b => a ≤ b) data
  let pos := p * ((data.length : ℚ) - 1)
  let k := (⌊pos⌋).toNat
  let g := pos - (⌊pos⌋ : ℚ)
  let a := s.getD k 0
  let b := s.getD (min (k + 1) (data.length - 1)) 0
  a + g * (b - a)

/-- `remove_outliers_iqr` of `src/app.py` (lines 528-541): for at least
4 points, clip every value to `[Q1 - multiplier*IQR, Q3 + multiplier*IQR]`
(pandas `clip(lower, upper)` is `min (max x lower) upper`); otherwise
return the data unchanged. -/
def remove_outliers_iqr (data : List ℚ) (multiplier : ℚ) : List ℚ :=
  if data.length < 4 then data
  else
    let Q1 := quantile data (1/4)
    let Q3 := quantile data (3/4)
    let IQR := Q3 - Q1
    let lower_bound := Q1 - multiplier * IQR
    let upper_bound := Q3 + multiplier * IQR
    data.map (fun x => min (max x lower_bound) upper_bound)

/-- The lower clipping bound `Q1 - multiplier * IQR` of
`remove_outliers_iqr`. -/
def iqrLowerBound (data : List ℚ) (multiplier : ℚ) : ℚ :=
  quantile data (1/4) - multiplier * (quantile data (3/4) - quantile data (1/4))

/-- The upper clipping bound `Q3 + multiplier * IQR` of
`remove_outliers_iqr`. -/
def iqrUpperBound (data : List ℚ) (multiplier : ℚ) : ℚ :=
  quantile data (3/4) + multiplier * (quantile data (3/4) - quantile data (1/4))

lemma remove_outliers_iqr_of_lt (data : List ℚ) (m : ℚ) (h : data.length < 4) :
    remove_outliers_iqr data m = data := by
  simp [remove_outliers_iqr, h]

lemma remove_outliers_iqr_of_ge (data : List ℚ) (m : ℚ) (h : ¬ data.length < 4) :
    remove_outliers_iqr data m =
      data.map (fun x => min (max x (iqrLowerBound data m)) (iqrUpperBound data m)) := by
  simp only [remove_outliers_iqr, if_neg h, iqrLowerBound, iqrUpperBound]

/-- Entries of a `(· ≤ ·)`-sorted list are monotone in the index. -/
lemma sorted_getD_mono {s : List ℚ} (hs : s.Sorted (· ≤ ·)) {i j : ℕ}
    (hij : i ≤ j) (hj : j < s.length) : s.getD i 0 ≤ s.getD j 0 := by
  have hi : i < s.length := lt_of_le_of_lt hij hj
  rw [List.getD_eq_getElem s 0 hi, List.getD_eq_getElem s 0 hj]
  rcases lt_or_eq_of_le hij with h | h
  · exact hs.rel_get_of_lt (a := ⟨i, hi⟩) (b := ⟨j, hj⟩) h
  · subst h; exact le_refl _

/-- Linear-interpolation quantiles are monotone in the probability. -/
lemma quantile_mono (data : List ℚ) {p q : ℚ} (hd : data ≠ [])
    (hp : 0 ≤ p) (hpq : p ≤ q) (hq : q ≤ 1) :
    quantile data p ≤ quantile data q := by
  classical
  unfold quantile
  dsimp only
  set s := List.insertionSort (fun a b : ℚ => a ≤ b) data with hsdef
  have hsl : s.length = data.length := List.length_insertionSort _ data
  have hsort : s.Sorted (· ≤ ·) := List.sorted_insertionSort _ data
  set n := data.length with hn
  have hn1 : 1 ≤ n := List.length_pos.mpr hd
  have hNnn : (0 : ℚ) ≤ (n : ℚ) - 1 := by
    have : (1 : ℚ) ≤ (n : ℚ) := by exact_mod_cast hn1
    linarith
  set x := p * ((n : ℚ) - 1) with hx
  set y := q * ((n : ℚ) - 1) with hy
  have hx0 : 0 ≤ x := mul_nonneg hp hNnn
  have hxy : x ≤ y := mul_le_mul_of_nonneg_right hpq hNnn
  have hyN : y ≤ (n : ℚ) - 1 := by
    calc y ≤ 1 * ((n : ℚ) - 1) := mul_le_mul_of_nonneg_right hq hNnn
    _ = (n : ℚ) - 1 := one_mul _
  have hfx0 : 0 ≤ ⌊x⌋ := Int.floor_nonneg.mpr hx0
  have hfxy : ⌊x⌋ ≤ ⌊y⌋ := Int.floor_le_floor hxy
  have hfyN : ⌊y⌋ ≤ (n : ℤ) - 1 := by
    have h1 : ⌊y⌋ ≤ ⌊(n : ℚ) - 1⌋ := Int.floor_le_floor hyN
    have h2 : ⌊(n : ℚ) - 1⌋ = (n : ℤ) - 1 := by
      have : ((n : ℚ) - 1) = (((n : ℤ) - 1 : ℤ) : ℚ) := by push_cast; ring
      rw [this, Int.floor_intCast]
    omega
  have hky : (⌊y⌋).toNat ≤ n - 1 := by omega
  have hkx : (⌊x⌋).toNat ≤ n - 1 := by
    have := Int.toNat_le_toNat hfxy
    omega
  have hgx0 : 0 ≤ x - (⌊x⌋ : ℚ) := sub_nonneg.mpr (Int.floor_le x)
  have hgx1 : x - (⌊x⌋ : ℚ) < 1 := by
    have := Int.lt_floor_add_one x
    linarith
  have hgy0 : 0 ≤ y - (⌊y⌋ : ℚ) := sub_nonneg.mpr (Int.floor_le y)
  have hgy1 : y - (⌊y⌋ : ℚ) < 1 := by
    have := Int.lt_floor_add_one y
    linarith
  have hmono : ∀ i j : ℕ, i ≤ j → j ≤ n - 1 → s.getD i 0 ≤ s.getD j 0 := by
    intro i j hij hjn
    exact sorted_getD_mono hsort hij (by omega)
  rcases Nat.lt_or_ge (⌊x⌋).toNat (⌊y⌋).toNat with hlt | hge
  · -- the floor positions differ: chain through the order statistics
    have hax : s.getD (⌊x⌋).toNat 0 ≤ s.getD (min ((⌊x⌋).toNat + 1) (n - 1)) 0 :=
      hmono _ _ (le_min (by omega) hkx) (min_le_right _ _)
    have hbx : s.getD (min ((⌊x⌋).toNat + 1) (n - 1)) 0 ≤ s.getD (⌊y⌋).toNat 0 :=
      hmono _ _ (le_trans (min_le_left _ _) (by omega)) hky
    have hay : s.getD (⌊y⌋).toNat 0 ≤ s.getD (min ((⌊y⌋).toNat + 1) (n - 1)) 0 :=
      hmono _ _ (le_min (by omega) hky) (min_le_right _ _)
    have h1 : s.getD (⌊x⌋).toNat 0 + (x - (⌊x⌋ : ℚ)) *
        (s.getD (min ((⌊x⌋).toNat + 1) (n - 1)) 0 - s.getD (⌊x⌋).toNat 0) ≤
        s.getD (min ((⌊x⌋).toNat + 1) (n - 1)) 0 := by nlinarith
    have h2 : s.getD (⌊y⌋).toNat 0 ≤ s.getD (⌊y⌋).toNat 0 + (y - (⌊y⌋ : ℚ)) *
        (s.getD (min ((⌊y⌋).toNat + 1) (n - 1)) 0 - s.getD (⌊y⌋).toNat 0) := by nlinarith
    linarith
  · -- equal floor positions: compare the interpolation weights
    have hkeq : (⌊x⌋).toNat = (⌊y⌋).toNat := le_antisymm (Int.toNat_le_toNat hfxy) hge
    have hfeq : ⌊x⌋ = ⌊y⌋ := by omega
    rw [hkeq, hfeq]
    have hab : s.getD (⌊y⌋).toNat 0 ≤ s.getD (min ((⌊y⌋).toNat + 1) (n - 1)) 0 :=
      hmono _ _ (le_min (by omega) hky) (min_le_right _ _)
    have hgg : x - (⌊y⌋ : ℚ) ≤ y - (⌊y⌋ : ℚ) := by linarith
    have hprod := mul_le_mul_of_nonneg_right hgg (sub_nonneg.mpr hab)
    linarith

/-- `Q1 ≤ Q3` for any nonempty series. -/
lemma quantile_q1_le_q3 (data : List ℚ) (hd : data ≠ []) :
    quantile data (1/4) ≤ quantile data (3/4) :=
  quantile_mono data hd (by norm_num) (by norm_num) (by norm_num)

/-- The clipping bounds of `remove_outliers_iqr` are ordered for any
nonnegative multiplier. -/
lemma iqrLowerBound_le_iqrUpperBound (data : List ℚ) {m : ℚ} (hd : data ≠ [])
    (hm : 0 ≤ m) : iqrLowerBound data m ≤ iqrUpperBound data m := by
  have h := quantile_q1_le_q3 data hd
  have : 0 ≤ m * (quantile data (3/4) - quantile data (1/4)) :=
    mul_nonneg hm (by linarith)
  unfold iqrLowerBound iqrUpperBound
  linarith

/-- Closed form of the first quartile for a series of four values whose
ascending sort is `[s0, s1, s2, s3]`: position `1/4 * 3 = 3/4`. -/
lemma quantile_q1_of_sorted_four {data : List ℚ} {s0 s1 s2 s3 : ℚ}
    (hs : List.insertionSort (fun a b : ℚ => a ≤ b) data = [s0, s1, s2, s3]) :
    quantile data (1/4) = s0 + 3/4 * (s1 - s0) := by
  have hlen : data.length = 4 := by
    have h := List.length_insertionSort (fun a b : ℚ => a ≤ b) data
    rw [hs] at h
    simpa using h.symm
  unfold quantile
  dsimp only
  rw [hs, hlen]
  rw [show (((4 : ℕ) : ℚ) - 1) = 3 by norm_num]
  have hfl : ⌊(1/4 : ℚ) * 3⌋ = 0 := by
    rw [Int.floor_eq_iff]
    norm_num
  rw [hfl]
  norm_num [List.getD_cons_zero, List.getD_cons_succ]

/-- Closed form of the third quartile for a series of four values whose
ascending sort is `[s0, s1, s2, s3]`: position `3/4 * 3 = 9/4`. -/
lemma quantile_q3_of_sorted_four {data : List ℚ} {s0 s1 s2 s3 : ℚ}
    (hs : List.insertionSort (fun a b : ℚ => a ≤ b) data = [s0, s1, s2, s3]) :
    quantile data (3/4) = s2 + 1/4 * (s3 - s2) := by
  have hlen : data.length = 4 := by
    have h := List.length_insertionSort (fun a b : ℚ => a ≤ b) data
    rw [hs] at h
    simpa using h.symm
  unfold quantile
  dsimp only
  rw [hs, hlen]
  rw [show (((4 : ℕ) : ℚ) - 1) = 3 by norm_num]
  have hfl : ⌊(3/4 : ℚ) * 3⌋ = 2 := by
    rw [Int.floor_eq_iff]
    norm_num
  rw [hfl]
  rw [show ((2 : ℤ)).toNat = 2 from rfl]
  norm_num [List.getD_cons_zero, List.getD_cons_succ]

/-- Claim C5: for a series of at least 4 points, `remove_outliers_iqr`
with the default multiplier 1.5 keeps the entry count and clips every
value into `[Q1 - 1.5*IQR, Q3 + 1.5*IQR]` computed from the original
series; for fewer than 4 points it is a no-op. -/
theorem C5_outlier_clipping_bounded (data : List ℚ) :
    (4 ≤ data.length →
      (remove_outliers_iqr data (3/2)).length = data.length ∧
      ∀ v ∈ remove_outliers_iqr data (3/2),
        iqrLowerBound data (3/2) ≤ v ∧ v ≤ iqrUpperBound data (3/2)) ∧
    (data.length < 4 → remove_outliers_iqr data (3/2) = data) := by
  constructor
  · intro h4
    have hd : data ≠ [] := by
      intro h
      subst h
      simp at h4
    have hlb := iqrLowerBound_le_iqrUpperBound data hd (by norm_num : (0:ℚ) ≤ 3/2)
    rw [remove_outliers_iqr_of_ge data (3/2) (by omega)]
    refine ⟨by simp, ?_⟩
    intro v hv
    obtain ⟨x, hx, rfl⟩ := List.mem_map.mp hv
    exact ⟨le_min (le_max_right _ _) hlb, min_le_right _ _⟩
  · intro h
    exact remove_outliers_iqr_of_lt data _ h

/-- Witness for C5 at the concrete inputs `[0, 100, 101, 102]`
(clipping case) and `[1, 2]` (no-op case). -/
theorem C5_witness :
    ((remove_outliers_iqr [0, 100, 101, 102] (3/2)).length =
        ([0, 100, 101, 102] : List ℚ).length ∧
      ∀ v ∈ remove_outliers_iqr [0, 100, 101, 102] (3/2),
        iqrLowerBound [0, 100, 101, 102] (3/2) ≤ v ∧
          v ≤ iqrUpperBound [0, 100, 101, 102] (3/2)) ∧
    remove_outliers_iqr [1, 2] (3/2) = [1, 2] :=
  ⟨(C5_outlier_clipping_bounded [0, 100, 101, 102]).1 (by decide),
   (C5_outlier_clipping_bounded [1, 2]).2 (by decide)⟩

/-- First application of `remove_outliers_iqr` to `[0, 100, 101, 102]`:
`Q1 = 75`, `Q3 = 405/4`, bounds `[285/8, 1125/8]`, so `0` is clipped
up to `285/8`. -/
lemma ro_pass_one :
    remove_outliers_iqr [0, 100, 101, 102] (3/2) = [285/8, 100, 101, 102] := by
  have hs : List.insertionSort (fun a b : ℚ => a ≤ b) [0, 100, 101, 102] =
      [0, 100, 101, 102] := by decide
  have hq1 : quantile [0, 100, 101, 102] (1/4) = 75 := by
    rw [quantile_q1_of_sorted_four hs]
    norm_num
  have hq3 : quantile [0, 100, 101, 102] (3/4) = 405/4 := by
    rw [quantile_q3_of_sorted_four hs]
    norm_num
  rw [remove_outliers_iqr_of_ge _ _ (by norm_num)]
  simp only [iqrLowerBound, iqrUpperBound, hq1, hq3]
  norm_num [max_def, min_def]

/-- Second application: the quartiles of the clipped series differ
(`Q1` rises to `2685/32`), so the head is clipped again, to `3705/64`. -/
lemma ro_pass_two :
    remove_outliers_iqr [285/8, 100, 101, 102] (3/2) = [3705/64, 100, 101, 102] := by
  have hs : List.insertionSort (fun a b : ℚ => a ≤ b) [285/8, 100, 101, 102] =
      [285/8, 100, 101, 102] := by
    norm_num [List.insertionSort, List.orderedInsert]
  have hq1 : quantile [285/8, 100, 101, 102] (1/4) = 2685/32 := by
    rw [quantile_q1_of_sorted_four hs]
    norm_num
  have hq3 : quantile [285/8, 100, 101, 102] (3/4) = 405/4 := by
    rw [quantile_q3_of_sorted_four hs]
    norm_num
  rw [remove_outliers_iqr_of_ge _ _ (by norm_num)]
  simp only [iqrLowerBound, iqrUpperBound, hq1, hq3]
  norm_num [max_def, min_def]

/-- Counterexample to claim C6 as stated: `remove_outliers_iqr` is not
idempotent, because the quartiles are recomputed on the clipped series.
On `[0, 100, 101, 102]` the first pass yields `[285/8, 100, 101, 102]`
and the second pass clips the head further, to `3705/64`. -/
theorem C6_counterexample :
    remove_outliers_iqr (remove_outliers_iqr [0, 100, 101, 102] (3/2)) (3/2) ≠
      remove_outliers_iqr [0, 100, 101, 102] (3/2) := by
  rw [ro_pass_one, ro_pass_two]
  intro h
  rw [List.cons.injEq] at h
  have := h.1
  norm_num at this

/-- Claim C6 amended: applying `remove_outliers_iqr` twice with the same
multiplier equals applying it once whenever the first application leaves
the series unchanged — i.e. when the series has fewer than 4 points, or
when every value already lies within the series' own IQR bounds.  (In
general a second application can clip further, because the quartiles are
recomputed on the clipped series; see the counterexample.) -/
theorem C6_idempotent_on_fixed_points (data : List ℚ) (m : ℚ)
    (h : data.length < 4 ∨
      ∀ v ∈ data, iqrLowerBound data m ≤ v ∧ v ≤ iqrUpperBound data m) :
    remove_outliers_iqr (remove_outliers_iqr data m) m =
      remove_outliers_iqr data m := by
  have hid : remove_outliers_iqr data m = data := by
    rcases h with h | h
    · exact remove_outliers_iqr_of_lt data m h
    · by_cases h4 : data.length < 4
      · exact remove_outliers_iqr_of_lt data m h4
      · rw [remove_outliers_iqr_of_ge data m h4]
        have hfix : ∀ x ∈ data,
            min (max x (iqrLowerBound data m)) (iqrUpperBound data m) = x := by
          intro x hx
          obtain ⟨h1, h2⟩ := h x hx
          rw [max_eq_left h1, min_eq_left h2]
        calc data.map (fun x => min (max x (iqrLowerBound data m)) (iqrUpperBound data m))
            = data.map id := List.map_congr_left hfix
          _ = data := List.map_id data
  rw [hid]
  exact hid

/-- Witness for the amended C6 at `[1, 2, 3, 4]` (bounds `[-1/2, 11/2]`
contain every value, so the double application equals the single one). -/
theorem C6_witness :
    remove_outliers_iqr (remove_outliers_iqr [1, 2, 3, 4] (3/2)) (3/2) =
      remove_outliers_iqr [1, 2, 3, 4] (3/2) := by
  apply C6_idempotent_on_fixed_points
  right
  have hs : List.insertionSort (fun a b : ℚ => a ≤ b) [1, 2, 3, 4] =
      [1, 2, 3, 4] := by decide
  have hq1 : quantile [1, 2, 3, 4] (1/4) = 7/4 := by
    rw [quantile_q1_of_sorted_four hs]
    norm_num
  have hq3 : quantile [1, 2, 3, 4] (3/4) = 13/4 := by
    rw [quantile_q3_of_sorted_four hs]
    norm_num
  intro v hv
  simp only [iqrLowerBound, iqrUpperBound, hq1, hq3]
  fin_cases hv <;> norm_num

/-- `get_forecast_scenarios` of `src/app.py` (lines 782-794):
`realistic = yhat`, `pessimistic = np.maximum(yhat_lower, 0)`,
`optimistic = np.maximum(yhat_upper, 0)`, returned in the order
`(realistic, optimistic, pessimistic)`.  The `volatility` argument is
accepted but never read. -/
def get_forecast_scenarios (forecast_df : List ForecastRow) (volatility : ℚ) :
    List ℚ × List ℚ × List ℚ :=
  let realistic := forecast_df.map (fun r => r.yhat)
  let lower_bound := forecast_df.map (fun r => r.yhat_lower)
  let upper_bound := forecast_df.map (fun r => r.yhat_upper)
  let pessimistic := lower_bound.map (fun v => max v 0)
  let optimistic := upper_bound.map (fun v => max v 0)
  (realistic, optimistic, pessimistic)

/-- The post-processing step of `train_prophet_model` of `src/app.py`
(lines 598-601): clip `yhat`, `yhat_lower`, `yhat_upper` of every
forecast row to `≥ 0`.  The rows fed into it come from the external
Prophet library, so theorems quantify over them. -/
def clampForecast (forecast : List ForecastRow) : List ForecastRow :=
  forecast.map (fun r => ⟨max r.yhat 0, max r.yhat_lower 0, max r.yhat_upper 0⟩)

/-- Width of the uncertainty band of one forecast row. -/
def bandWidth (r : ForecastRow) : ℚ := r.yhat_upper - r.yhat_lower

/-- Claim C9: the scenario triple is independent of the volatility
argument — `get_forecast_scenarios` never reads it, so any two
volatility values give identical results. -/
theorem C9_scenarios_ignore_volatility (forecast_df : List ForecastRow)
    (v1 v2 : ℚ) :
    get_forecast_scenarios forecast_df v1 = get_forecast_scenarios forecast_df v2 :=
  rfl

/-- Counterexample to claim C1 as stated: the scenario generator does
not reorder or clip an inconsistent triple.  The forecast row
`(yhat = 3, yhat_lower = 5, yhat_upper = 10)` is a fixed point of the
pipeline's clamp, yet the generator returns `pessimistic = 5 >
realistic = 3` unchanged. -/
theorem C1_counterexample :
    clampForecast [⟨3, 5, 10⟩] = [⟨3, 5, 10⟩] ∧
    get_forecast_scenarios [⟨3, 5, 10⟩] 0 = ([3], [10], [5]) ∧
    ¬ ((5 : ℚ) ≤ 3) := by
  refine ⟨?_, ?_, by norm_num⟩
  · simp [clampForecast]
  · simp [get_forecast_scenarios]

/-- Claim C1 amended: when the engine's bounds already satisfy
`yhat_lower ≤ yhat ≤ yhat_upper` row-wise, the pipeline (clamp to `≥ 0`
in `train_prophet_model`, then `get_forecast_scenarios`) yields
scenarios with `0 ≤ pessimistic ≤ realistic ≤ optimistic` at every
index; the generator itself performs no reordering, so an inconsistent
engine triple propagates (see the counterexample). -/
theorem C1_scenario_ordering (raw : List ForecastRow) (v : ℚ) (i : ℕ)
    (hord : ∀ r ∈ raw, r.yhat_lower ≤ r.yhat ∧ r.yhat ≤ r.yhat_upper)
    (hi : i < raw.length) :
    0 ≤ (get_forecast_scenarios (clampForecast raw) v).2.2.getD i 0 ∧
    (get_forecast_scenarios (clampForecast raw) v).2.2.getD i 0 ≤
      (get_forecast_scenarios (clampForecast raw) v).1.getD i 0 ∧
    (get_forecast_scenarios (clampForecast raw) v).1.getD i 0 ≤
      (get_forecast_scenarios (clampForecast raw) v).2.1.getD i 0 := by
  have hrepr : get_forecast_scenarios (clampForecast raw) v =
      (raw.map (fun r => max r.yhat 0),
       raw.map (fun r => max (max r.yhat_upper 0) 0),
       raw.map (fun r => max (max r.yhat_lower 0) 0)) := by
    simp [get_forecast_scenarios, clampForecast, List.map_map]
  rw [hrepr]
  have hget : ∀ f : ForecastRow → ℚ, (List.map f raw).getD i 0 = f (raw.get ⟨i, hi⟩) := by
    intro f
    rw [List.getD_eq_getElem _ _ (by simpa using hi), List.getElem_map]
    rfl
  rw [hget, hget, hget]
  obtain ⟨hl, hu⟩ := hord (raw.get ⟨i, hi⟩) (List.get_mem raw i hi)
  refine ⟨le_max_right _ _, ?_, ?_⟩
  · exact max_le (max_le (le_trans hl (le_max_left _ _)) (le_max_right _ _))
      (le_max_right _ _)
  · exact le_trans (max_le_max hu (le_refl 0)) (le_max_left _ _)

/-- Witness for the amended C1 at the single consistent row
`(yhat = 2, yhat_lower = 1, yhat_upper = 4)`. -/
theorem C1_witness :
    0 ≤ (get_forecast_scenarios (clampForecast [⟨2, 1, 4⟩]) 0).2.2.getD 0 0 ∧
    (get_forecast_scenarios (clampForecast [⟨2, 1, 4⟩]) 0).2.2.getD 0 0 ≤
      (get_forecast_scenarios (clampForecast [⟨2, 1, 4⟩]) 0).1.getD 0 0 ∧
    (get_forecast_scenarios (clampForecast [⟨2, 1, 4⟩]) 0).1.getD 0 0 ≤
      (get_forecast_scenarios (clampForecast [⟨2, 1, 4⟩]) 0).2.1.getD 0 0 :=
  C1_scenario_ordering [⟨2, 1, 4⟩] 0 0 (by decide) (by decide)

/-- Counterexample to claim C8 as stated: the engine's clamp to `≥ 0`
does not preserve monotone band widths.  Raw rows with widths `8 ≤ 10`
are clamped to widths `8 > 5` (the second row's band `[-5, 5]` becomes
`[0, 5]`). -/
theorem C8_counterexample :
    bandWidth ((clampForecast [⟨6, 2, 10⟩, ⟨0, -5, 5⟩]).getD 1 ⟨0, 0, 0⟩) <
      bandWidth ((clampForecast [⟨6, 2, 10⟩, ⟨0, -5, 5⟩]).getD 0 ⟨0, 0, 0⟩) ∧
    bandWidth (([⟨6, 2, 10⟩, ⟨0, -5, 5⟩] : List ForecastRow).getD 0 ⟨0, 0, 0⟩) ≤
      bandWidth (([⟨6, 2, 10⟩, ⟨0, -5, 5⟩] : List ForecastRow).getD 1 ⟨0, 0, 0⟩) := by
  constructor
  · norm_num [clampForecast, bandWidth, List.getD_cons_zero, List.getD_cons_succ,
      max_def]
  · norm_num [bandWidth, List.getD_cons_zero, List.getD_cons_succ]

/-- Claim C8 amended: when the engine's raw bounds are nonnegative and
ordered (`0 ≤ yhat_lower ≤ yhat_upper` row-wise) the clamp keeps every
band width, so monotone raw widths stay monotone after clamping; with
negative raw bounds the clamp can shrink widths (see the
counterexample), and no code of the repository enforces monotone raw
widths — those come from the external Prophet library. -/
theorem C8_clamped_width_monotone (rows : List ForecastRow)
    (hb : ∀ r ∈ rows, 0 ≤ r.yhat_lower ∧ r.yhat_lower ≤ r.yhat_upper)
    (i j : ℕ) (hij : i ≤ j) (hj : j < rows.length)
    (hw : bandWidth (rows.getD i ⟨0, 0, 0⟩) ≤ bandWidth (rows.getD j ⟨0, 0, 0⟩)) :
    bandWidth ((clampForecast rows).getD i ⟨0, 0, 0⟩) ≤
      bandWidth ((clampForecast rows).getD j ⟨0, 0, 0⟩) := by
  have key : ∀ k, k < rows.length →
      bandWidth ((clampForecast rows).getD k ⟨0, 0, 0⟩) =
        bandWidth (rows.getD k ⟨0, 0, 0⟩) := by
    intro k hk
    have hk2 : k < (clampForecast rows).length := by
      simpa [clampForecast] using hk
    rw [List.getD_eq_getElem _ _ hk2, List.getD_eq_getElem _ _ hk]
    show bandWidth ((List.map
      (fun r : ForecastRow => (⟨max r.yhat 0, max r.yhat_lower 0, max r.yhat_upper 0⟩ :
        ForecastRow)) rows)[k]) = _
    rw [List.getElem_map]
    obtain ⟨h0, hlu⟩ := hb (rows[k]) (List.getElem_mem hk)
    have hu0 : (0 : ℚ) ≤ (rows[k]).yhat_upper := le_trans h0 hlu
    show max ((rows[k]).yhat_upper) 0 - max ((rows[k]).yhat_lower) 0 =
      (rows[k]).yhat_upper - (rows[k]).yhat_lower
    rw [max_eq_left hu0, max_eq_left h0]
  rw [key i (lt_of_le_of_lt hij hj), key j hj]
  exact hw

/-- Witness for the amended C8 at two rows with nonnegative ordered
bounds and widths `2 ≤ 3`. -/
theorem C8_witness :
    bandWidth ((clampForecast [⟨1, 0, 2⟩, ⟨1, 0, 3⟩]).getD 0 ⟨0, 0, 0⟩) ≤
      bandWidth ((clampForecast [⟨1, 0, 2⟩, ⟨1, 0, 3⟩]).getD 1 ⟨0, 0, 0⟩) :=
  C8_clamped_width_monotone [⟨1, 0, 2⟩, ⟨1, 0, 3⟩] (by decide) 0 1
    (by omega) (by decide)
    (by norm_num [bandWidth, List.getD_cons_zero, List.getD_cons_succ])

/-- `pandas.Series.rolling(window, min_periods=1, center=True).mean()`:
the entry at index `i` is the mean of the values at indices
`[i + 1 + (w-1)/2 - w, i + (w-1)/2]` intersected with the index range
(partial windows at the edges, never empty for `w ≥ 1`). -/
def movingAverage (data : List ℚ) (w : ℕ) : List ℚ :=
  (List.range data.length).map (fun i =>
    let idx := (List.range data.length).filter
      (fun j => i + 1 + (w - 1) / 2 ≤ j + w ∧ j ≤ i + (w - 1) / 2)
    (idx.map (fun j => data.getD j 0)).sum / (idx.length : ℚ))

/-- Helper for `ema`: the recurrence
`y_i = (1 - alpha) * y_(i-1) + alpha * x_i`. -/
def emaAux (alpha : ℚ) : ℚ → List ℚ → List ℚ
  | _, [] => []
  | prev, x :: xs =>
    let y := (1 - alpha) * prev + alpha * x
    y :: emaAux alpha y xs

/-- `pandas.Series.ewm(span=window, adjust=False).mean()`:
`alpha = 2 / (span + 1)`, seeded with the first value. -/
def ema (data : List ℚ) (span : ℕ) : List ℚ :=
  match data with
  | [] => []
  | x :: xs => x :: emaAux (2 / ((span : ℚ) + 1)) x xs

/-- `smooth_data` of `src/app.py` (lines 543-558).  The scipy
`savgol_filter` call is external, so it is a parameter `sg`; `sg … =
none` models the caught exception of the bare `except` branch, which
falls back to the centered moving average with the (possibly
incremented) window.  An unknown method, or method `'savgol'` with a
series shorter than the window, returns the data unchanged. -/
def smooth_data (sg : List ℚ → ℕ → ℕ → Option (List ℚ)) (data : List ℚ)
    (method : String) (window : ℕ) : List ℚ :=
  if method = "ma" then movingAverage data window
  else if method = "ema" then ema data window
  else if method = "savgol" ∧ window ≤ data.length then
    let w := if window % 2 = 0 then window + 1 else window
    match sg data w (min 3 (w - 1)) with
    | some result => result
    | none => movingAverage data w
  else data

/-- A savgol stand-in that always fails numerically (used only in closed
statements on branches where the filter is not called, or where the
fallback is exercised). -/
def sgFail : List ℚ → ℕ → ℕ → Option (List ℚ) := fun _ _ _ => none

/-- Counterexample to claim C4 as stated: for a series shorter than the
window the smoother does not fall back to the moving average — it
returns the data unchanged (`[0, 6]`, whose moving average with window 7
would be `[3, 3]`). -/
theorem C4_counterexample :
    smooth_data sgFail [0, 6] "savgol" 7 = [0, 6] ∧
    movingAverage [0, 6] 7 = [3, 3] ∧
    ([0, 6] : List ℚ) ≠ [3, 3] := by
  refine ⟨?_, ?_, by norm_num⟩
  · simp [smooth_data]
  · have hr : List.range 2 = [0, 1] := rfl
    norm_num [movingAverage, hr, List.filter, List.getD_cons_zero,
      List.getD_cons_succ]

/-- Claim C4 amended: for method `'savgol'`, an even window is
incremented by one and the polynomial order is `min 3 (window - 1)` for
the incremented window; a numerical failure of the filter falls back to
the centered moving average with that same (possibly incremented)
window; but a series shorter than the configured window is returned
unchanged — no moving-average fallback happens in that case (see the
counterexample). -/
theorem C4_savgol_dispatch (sg : List ℚ → ℕ → ℕ → Option (List ℚ))
    (data : List ℚ) (window : ℕ) :
    (data.length < window → smooth_data sg data "savgol" window = data) ∧
    (window ≤ data.length → window % 2 = 0 →
      smooth_data sg data "savgol" window =
        (sg data (window + 1) (min 3 window)).getD (movingAverage data (window + 1))) ∧
    (window ≤ data.length → window % 2 = 1 →
      smooth_data sg data "savgol" window =
        (sg data window (min 3 (window - 1))).getD (movingAverage data window)) := by
  refine ⟨?_, ?_, ?_⟩
  · intro h
    have h2 : ¬ (window ≤ data.length) := by omega
    simp [smooth_data, h2]
  · intro h he
    cases hsg : sg data (window + 1) (min 3 window) with
    | none => simp [smooth_data, h, he, hsg, Nat.add_sub_cancel]
    | some result => simp [smooth_data, h, he, hsg, Nat.add_sub_cancel]
  · intro h ho
    have he : ¬ (window % 2 = 0) := by omega
    cases hsg : sg data window (min 3 (window - 1)) with
    | none => simp [smooth_data, h, he, hsg]
    | some result => simp [smooth_data, h, he, hsg]

/-- Witness for the amended C4 on `[1, 2, 3]` with windows 7 (short
series), 2 (even) and 3 (odd). -/
theorem C4_witness :
    smooth_data sgFail [1, 2, 3] "savgol" 7 = [1, 2, 3] ∧
    smooth_data sgFail [1, 2, 3] "savgol" 2 =
      (sgFail [1, 2, 3] 3 (min 3 2)).getD (movingAverage [1, 2, 3] 3) ∧
    smooth_data sgFail [1, 2, 3] "savgol" 3 =
      (sgFail [1, 2, 3] 3 (min 3 2)).getD (movingAverage [1, 2, 3] 3) :=
  ⟨(C4_savgol_dispatch sgFail [1, 2, 3] 7).1 (by decide),
   (C4_savgol_dispatch sgFail [1, 2, 3] 2).2.1 (by decide) (by decide),
   (C4_savgol_dispatch sgFail [1, 2, 3] 3).2.2 (by decide) (by decide)⟩

/-- `df.groupby('Datasales')['Qty'].sum()`: one entry per distinct day,
keys sorted ascending, value = sum of `Qty` over the rows of that day. -/
def groupSumByDate (rows : List TxRow) : List (ℕ × ℚ) :=
  let dates := (rows.map (fun r => r.datasales)).dedup
  let sorted_dates := List.insertionSort (fun a b => a ≤ b) dates
  sorted_dates.map (fun d =>
    (d, ((rows.filter (fun r => r.datasales = d)).map (fun r => r.qty)).sum))

/-- `prepare_prophet_data` of `src/app.py` (lines 560-579): aggregate to
a daily series, optionally clip outliers (multiplier 1.5), optionally
smooth, clip the result to `≥ 0`; returns `(prophet_data, original_data)`. -/
def prepare_prophet_data (sg : List ℚ → ℕ → ℕ → Option (List ℚ))
    (df : List TxRow) (remove_outliers : Bool) (smooth_method : Option String)
    (smooth_window : ℕ) : List (ℕ × ℚ) × List (ℕ × ℚ) :=
  let daily_sales := groupSumByDate df
  let original_data := daily_sales
  let y1 := if remove_outliers then
      remove_outliers_iqr (daily_sales.map Prod.snd) (3/2)
    else daily_sales.map Prod.snd
  let y2 := match smooth_method with
    | some m => smooth_data sg y1 m smooth_window
    | none => y1
  let y3 := y2.map (fun v => max v 0)
  ((daily_sales.map Prod.fst).zip y3, original_data)

/-- The store/segment filtering of `main` in `src/app.py` (lines
1624-1630): filter by store unless the all-stores sentinel is selected,
then by segment unless the all-segments sentinel is selected. -/
def applyFilters (df : List TxRow) (selected_magazin selected_segment : String) :
    List TxRow :=
  let f1 := if selected_magazin ≠ "Всі магазини" then
      df.filter (fun r => r.magazin = selected_magazin)
    else df
  if selected_segment ≠ "Всі сегменти" then
    f1.filter (fun r => r.segment = selected_segment)
  else f1

/-- The forecasting entry of `main` in `src/app.py` (lines 1624-1668):
filter, refuse with an error (modelled `none`) when fewer than 10 rows
remain, otherwise prepare the data and hand it to the model-fitting
step.  Prophet fitting is external, so it is the parameter `fit`. -/
def main_forecast_gate {α : Type} (fit : List (ℕ × ℚ) → α)
    (sg : List ℚ → ℕ → ℕ → Option (List ℚ)) (df : List TxRow)
    (selected_magazin selected_segment : String) (remove_outliers : Bool)
    (smooth_method : Option String) (smooth_window : ℕ) : Option α :=
  let filtered_df := applyFilters df selected_magazin selected_segment
  if filtered_df.length < 10 then none
  else some (fit
    (prepare_prophet_data sg filtered_df remove_outliers smooth_method smooth_window).1)

/-- Claim C3: with fewer than 10 filtered rows the pipeline signals
insufficient data and performs no fit (the result is `none` for every
fitting function, which is therefore never invoked); with at least 10
rows it proceeds to fit the prepared data. -/
theorem C3_insufficient_data_gate {α : Type} (fit : List (ℕ × ℚ) → α)
    (sg : List ℚ → ℕ → ℕ → Option (List ℚ)) (df : List TxRow)
    (magazin segment : String) (remove_outliers : Bool)
    (smooth_method : Option String) (smooth_window : ℕ) :
    ((applyFilters df magazin segment).length < 10 →
      main_forecast_gate fit sg df magazin segment remove_outliers
        smooth_method smooth_window = none) ∧
    (10 ≤ (applyFilters df magazin segment).length →
      main_forecast_gate fit sg df magazin segment remove_outliers
        smooth_method smooth_window =
      some (fit (prepare_prophet_data sg (applyFilters df magazin segment)
        remove_outliers smooth_method smooth_window).1)) := by
  constructor
  · intro h
    simp [main_forecast_gate, h]
  · intro h
    simp [main_forecast_gate, Nat.not_lt.mpr h]

/-- Witness for C3: 9 identical filtered rows are refused, 10 are fitted
(with a constant fitting function). -/
theorem C3_witness :
    main_forecast_gate (fun _ => (0 : ℕ)) sgFail
      (List.replicate 9 (⟨"m", "s", 1, 1⟩ : TxRow)) "m" "s" false none 7 = none ∧
    main_forecast_gate (fun _ => (0 : ℕ)) sgFail
      (List.replicate 10 (⟨"m", "s", 1, 1⟩ : TxRow)) "m" "s" false none 7 = some 0 :=
  ⟨(C3_insufficient_data_gate (fun _ => (0 : ℕ)) sgFail
      (List.replicate 9 (⟨"m", "s", 1, 1⟩ : TxRow)) "m" "s" false none 7).1
      (by decide),
   (C3_insufficient_data_gate (fun _ => (0 : ℕ)) sgFail
      (List.replicate 10 (⟨"m", "s", 1, 1⟩ : TxRow)) "m" "s" false none 7).2
      (by decide)⟩

/-- The four metrics of `calculate_model_accuracy`. -/
structure AccMetrics where
  MAE : ℚ
  RMSE : ℚ
  MAPE : ℚ
  R2 : ℚ
deriving DecidableEq

/-- The `(actual, predicted)` pairs after the truncation
`min_len = min(len(y_true), len(y_pred))` of `calculate_model_accuracy`. -/
def alignedPairs (y_true y_pred : List ℚ) : List (ℚ × ℚ) :=
  (y_true.take (min y_true.length y_pred.length)).zip
    (y_pred.take (min y_true.length y_pred.length))

/-- The MAPE computation of `calculate_model_accuracy`: averaged only
over the pairs whose actual value is nonzero (`mask = y_true != 0`),
and 0 when no such pair exists. -/
def mapeOf (pairs : List (ℚ × ℚ)) : ℚ :=
  let nz := pairs.filter (fun ab => ab.1 ≠ 0)
  if 0 < nz.length then
    ((nz.map (fun ab => |(ab.1 - ab.2) / ab.1|)).sum / (nz.length : ℚ)) * 100
  else 0

/-- The `r2_score` computation of `calculate_model_accuracy`, with the
sklearn convention for a constant actual series (`SS_tot = 0`). -/
def r2Of (yt : List ℚ) (pairs : List (ℚ × ℚ)) (n : ℚ) : ℚ :=
  if (yt.map (fun t => (t - yt.sum / n) ^ 2)).sum = 0 then
    (if (pairs.map (fun ab => (ab.1 - ab.2) ^ 2)).sum = 0 then 1 else 0)
  else 1 - (pairs.map (fun ab => (ab.1 - ab.2) ^ 2)).sum /
    (yt.map (fun t => (t - yt.sum / n) ^ 2)).sum

/-- `calculate_model_accuracy` of `src/app.py` (lines 609-645), with the
model's historical predictions supplied as `y_pred`: both arrays are
truncated to the shorter length; `numpy.sqrt` in RMSE is modelled by
`Rat.sqrt`. -/
def calculate_model_accuracy (y_true y_pred : List ℚ) : AccMetrics :=
  let min_len := min y_true.length y_pred.length
  let yt := y_true.take min_len
  let n : ℚ := min_len
  ⟨((alignedPairs y_true y_pred).map (fun ab => |ab.1 - ab.2|)).sum / n,
   Rat.sqrt (((alignedPairs y_true y_pred).map (fun ab => (ab.1 - ab.2) ^ 2)).sum / n),
   mapeOf (alignedPairs y_true y_pred),
   r2Of yt (alignedPairs y_true y_pred) n⟩

/-- Claim C7: MAPE is computed only over aligned pairs with nonzero
actual value, and when every aligned actual is 0 the result is `MAPE = 0`
rather than a division by zero. -/
theorem C7_mape_zero_guard (y_true y_pred : List ℚ)
    (hz : ∀ t ∈ y_true.take (min y_true.length y_pred.length), t = 0) :
    (calculate_model_accuracy y_true y_pred).MAPE = 0 := by
  have hproj : (calculate_model_accuracy y_true y_pred).MAPE =
      mapeOf (alignedPairs y_true y_pred) := rfl
  rw [hproj]
  have hnil : (alignedPairs y_true y_pred).filter (fun ab => ab.1 ≠ 0) = [] := by
    rw [List.filter_eq_nil_iff]
    intro ab hab
    obtain ⟨a, b⟩ := ab
    have h1 := (List.of_mem_zip hab).1
    simp [hz a h1]
  unfold mapeOf
  rw [hnil]
  simp

/-- Witness for C7 with actuals `[0, 0]` and predictions `[1, 2]`. -/
theorem C7_witness : (calculate_model_accuracy [0, 0] [1, 2]).MAPE = 0 :=
  C7_mape_zero_guard [0, 0] [1, 2] (by decide)

/-- Sample coefficient of variation of a daily series:
`std(ddof=1) / mean`, with `numpy`/pandas `sqrt` modelled by
`Rat.sqrt`. -/
def dailyCV (daily : List ℚ) : ℚ :=
  Rat.sqrt ((daily.map (fun v => (v - daily.sum / (daily.length : ℚ)) ^ 2)).sum /
    ((daily.length : ℚ) - 1)) / (daily.sum / (daily.length : ℚ))

/-- The body of `calculate_segment_volatility` after aggregation: return
the default `0.3` for a zero mean; for a single-day series, pandas
`std(ddof=1)` is `NaN` and the Python `min`/`max` clamp propagates it —
modelled as `none`; otherwise clamp the coefficient of variation to
`[0, 1]` via `min(max(volatility, 0), 1)`. -/
def volatilityOfDaily (daily_sales : List ℚ) : Option ℚ :=
  if daily_sales.sum / (daily_sales.length : ℚ) = 0 then some (3/10)
  else if daily_sales.length < 2 then none
  else some (min (max (dailyCV daily_sales) 0) 1)

/-- `calculate_segment_volatility` of `src/app.py` (lines 764-780):
filter by store and segment, return the default `0.3` for fewer than 2
rows, aggregate by day and apply `volatilityOfDaily`. -/
def calculate_segment_volatility (df : List TxRow) (magazin segment : String) :
    Option ℚ :=
  if (df.filter (fun r => r.magazin == magazin && r.segment == segment)).length < 2 then
    some (3/10)
  else
    volatilityOfDaily ((groupSumByDate
      (df.filter (fun r => r.magazin == magazin && r.segment == segment))).map Prod.snd)

/-- The coefficient of variation of the daily series of a filtered
slice (used to state what the clamped volatility equals). -/
def segmentDailyCV (df : List TxRow) (magazin segment : String) : ℚ :=
  dailyCV ((groupSumByDate
    (df.filter (fun r => r.magazin == magazin && r.segment == segment))).map Prod.snd)

/-- Claim C2 amended: the volatility score defaults to `0.3` when the
filtered slice has fewer than 2 rows (or the daily mean is zero), and
any returned value is the coefficient of variation clamped to `[0, 1]`
— the clamp floor is `0`, not the `0.1` stated in the claim (see the
counterexample); for a slice whose daily series has a single point the
score is undefined (`NaN`, here `none`, claim C10). -/
theorem C2_volatility_default_and_range (df : List TxRow)
    (magazin segment : String) :
    ((df.filter (fun r => r.magazin == magazin && r.segment == segment)).length < 2 →
      calculate_segment_volatility df magazin segment = some (3/10)) ∧
    (∀ v, calculate_segment_volatility df magazin segment = some v →
      0 ≤ v ∧ v ≤ 1 ∧
        (v = 3/10 ∨ v = min (max (segmentDailyCV df magazin segment) 0) 1)) := by
  constructor
  · intro h
    simp [calculate_segment_volatility, h]
  · intro v hv
    unfold calculate_segment_volatility at hv
    split_ifs at hv with h1
    · obtain rfl : (3/10 : ℚ) = v := Option.some.inj hv
      refine ⟨by norm_num, by norm_num, Or.inl rfl⟩
    · unfold volatilityOfDaily at hv
      split_ifs at hv with h2 h3
      · obtain rfl : (3/10 : ℚ) = v := Option.some.inj hv
        refine ⟨by norm_num, by norm_num, Or.inl rfl⟩
      · obtain rfl := Option.some.inj hv
        refine ⟨le_min (le_max_right _ _) zero_le_one, min_le_right _ _, Or.inr ?_⟩
        rfl

/-- Witness for the amended C2: the empty slice hits the default branch,
and the returned default lies in the stated range. -/
theorem C2_witness :
    calculate_segment_volatility [] "m" "s" = some (3/10) ∧
    (0 ≤ (3/10 : ℚ) ∧ (3/10 : ℚ) ≤ 1 ∧
      ((3/10 : ℚ) = 3/10 ∨
        (3/10 : ℚ) = min (max (segmentDailyCV [] "m" "s") 0) 1)) :=
  ⟨(C2_volatility_default_and_range [] "m" "s").1 (by decide),
   (C2_volatility_default_and_range [] "m" "s").2 (3/10)
     ((C2_volatility_default_and_range [] "m" "s").1 (by decide))⟩

/-- Counterexample to claim C2 as stated: the clamp is to `[0, 1]`, not
`[0.1, 1.0]`.  Two rows of equal quantity on two distinct days give a
zero coefficient of variation, and the score `0` is below `1/10`. -/
theorem C2_counterexample :
    calculate_segment_volatility
      [⟨"m", "s", 1, 5⟩, ⟨"m", "s", 2, 5⟩] "m" "s" = some 0 ∧
    ¬ ((1/10 : ℚ) ≤ 0) := by
  constructor
  · have hded : (([1, 2] : List ℕ)).dedup = [1, 2] := by decide
    norm_num [calculate_segment_volatility, volatilityOfDaily, dailyCV,
      groupSumByDate, hded, List.insertionSort, List.orderedInsert, List.filter,
      show Rat.sqrt 0 = 0 from rfl, max_def, min_def]
  · norm_num

/-- Claim C10: a slice with (at least) 2 rows all on one calendar day
passes the row-count guard, but its daily series has a single point, the
sample standard deviation is `NaN` (ddof = 1), and the `min`/`max` clamp
does not repair it — the returned value is not a number in the
documented range (modelled as `none`). -/
theorem C10_single_day_slice_nan :
    (([⟨"m", "s", 1, 5⟩, ⟨"m", "s", 1, 7⟩] : List TxRow).filter
      (fun r => r.magazin == "m" && r.segment == "s")).length = 2 ∧
    calculate_segment_volatility [⟨"m", "s", 1, 5⟩, ⟨"m", "s", 1, 7⟩] "m" "s" =
      none := by
  constructor
  · decide
  · have hded : (([1, 1] : List ℕ)).dedup = [1] := by decide
    norm_num [calculate_segment_volatility, volatilityOfDaily, groupSumByDate,
      hded, List.insertionSort, List.orderedInsert, List.filter]

end PredictSales
